import Mathlib

/-!
# Verification of the `ivxj` package (IVXJ estimation for unbalanced panels)

A shallow embedding, over exact rational arithmetic, of the pure numerical
core of the `ivxj` Python package:

* `split_mat_into_cells.py` — panel segmentation by per-unit lengths,
* `delete_period_obs.py`    — lag-window deletion,
* `within_trans.py`         — within-unit demeaning,
* `gen_ivx.py`              — self-generated (IVX) instrument construction,
* `xj.py`                   — split-half jackknife estimate of the AR(1) rho,
* `xjackkUnbalanced.py`     — an earlier snapshot of the same jackknife routine,
* `ivxj.py`                 — orchestrator `raw_ivxj` and column defaulting.

Stacked float64 series are modelled as `List ℚ` (exact arithmetic in place of
IEEE doubles), numpy integer vectors as `List ℕ`.  Python slices are embedded
by explicit helpers (`pySliceZ`, `everyOther`, …) that reproduce Python's
clipping and negative-index semantics, including the `x[:-0] = []` behaviour.
Lean's convention `q / 0 = 0` stands in the few places where numpy float
division by zero would produce `NaN`/`inf` (the source never raises on these
paths; which expressions divide by zero is tracked explicitly in the
theorems below).
-/

/-! ## Python slice and elementary numeric helpers -/

/-- Python slice `l[start:stop]` with a possibly negative `stop`
(`stop < 0` counts from the end; results are clipped to the list,
exactly as in Python).  Note `l[0:-0]` has `stop = 0`, hence is empty. -/
def pySliceZ (l : List ℚ) (start : ℕ) (stop : ℤ) : List ℚ :=
  let n : ℤ := l.length
  let s : ℤ := if stop < 0 then n + stop else stop
  (l.take s.toNat).drop start

/-- Python slice `l[start:stop]` with nonnegative bounds. -/
def sliceNat (A : List ℚ) (s e : ℕ) : List ℚ := (A.take e).drop s

/-- Elements at positions 0, 2, 4, … of a list: the `::2` step of a Python
slice (applied after the `start:stop` part has been sliced off). -/
def everyOther : List ℚ → List ℚ
  | [] => []
  | [a] => [a]
  | a :: _ :: rest => a :: everyOther rest

/-- `np.cumsum` on a rational vector. -/
def cumsumQ (l : List ℚ) : List ℚ := (l.scanl (· + ·) 0).drop 1

/-- `np.cumsum` on an integer vector. -/
def cumsumN (l : List ℕ) : List ℕ := (l.scanl (· + ·) 0).drop 1

/-- `np.dot` of two stacked vectors (the sources only apply it to vectors of
equal length; `zipWith` clips to the shorter one). -/
def dotQ (a b : List ℚ) : ℚ := (List.zipWith (· * ·) a b).sum

/-- `np.mean` of a vector.  For the empty list this is `0/0 = 0` in ℚ where
numpy would warn and produce `NaN`; every use below is on nonempty cells. -/
def meanQ (l : List ℚ) : ℚ := l.sum / (l.length : ℚ)

/-! ## `split_mat_into_cells.py`

```python
def split_mat_into_cells(A, Tlens):
    end_indices = np.cumsum(Tlens)
    start_indices = np.concatenate(([0], end_indices[:-1]))
    return [A[start:end] for start, end in zip(start_indices, end_indices)]
```
-/

/-- `split_mat_into_cells(A, Tlens)`: prefix sums of `Tlens` give the
per-unit index ranges, and the list comprehension slices `A` accordingly. -/
def split_mat_into_cells (A : List ℚ) (Tlens : List ℕ) : List (List ℚ) :=
  let end_indices := cumsumN Tlens
  let start_indices := 0 :: end_indices.dropLast
  (start_indices.zip end_indices).map (fun se => sliceNat A se.1 se.2)

/-- Recursive view of the segmentation: peel off the first `T` elements for
each unit in turn.  Proved equal to the prefix-sum formulation below. -/
def chunks (A : List ℚ) : List ℕ → List (List ℚ)
  | [] => []
  | T :: Ts => A.take T :: chunks (A.drop T) Ts

/-! ## `delete_period_obs.py`

```python
def delete_period_obs(A, Tlens, h, fromStart=True):
    subMatList = split_mat_into_cells(A, Tlens)
    if fromStart:
        B = np.concatenate([x[h:] for x in subMatList])
    else:
        B = np.concatenate([x[:-h] for x in subMatList])
    return B
```
`x[:-h]` is embedded through `pySliceZ x 0 (-h)`, which, like Python,
yields the empty list when `h = 0` (the stop index `-0` is `0`). -/

def delete_period_obs (A : List ℚ) (Tlens : List ℕ) (h : ℕ)
    (fromStart : Bool := true) : List ℚ :=
  let subMatList := split_mat_into_cells A Tlens
  if fromStart then (subMatList.map (fun x => x.drop h)).flatten
  else (subMatList.map (fun x => pySliceZ x 0 (-(h : ℤ)))).flatten

/-! ## `within_trans.py`

```python
def within_trans(A, Tlens):
    subMatList = split_mat_into_cells(A, Tlens)
    B = np.concatenate([x - np.mean(x, axis=0) for x in subMatList])
    return B
```
-/

def within_trans (A : List ℚ) (Tlens : List ℕ) : List ℚ :=
  ((split_mat_into_cells A Tlens).map
    (fun x => x.map (fun v => v - meanQ x))).flatten

/-! ## `gen_ivx.py`

```python
def gen_ivx_for_one_time_series(x, rhoz):
    T = len(x)
    dx = np.diff(x)
    dx = np.insert(dx, 0, x[0])  # First difference, with dx_1 = x_1
    powers = rhoz ** np.arange(T - 1, -1, -1)
    z = np.cumsum(powers * dx) / powers
    return z
```
`x[0]` raises `IndexError` on an empty series in Python; it is embedded as
`x.headD 0`, which only matters for empty units — every stated theorem
restricts to strictly positive unit lengths. -/

def gen_ivx_for_one_time_series (x : List ℚ) (rhoz : ℚ) : List ℚ :=
  let T := x.length
  let dx := x.headD 0 :: List.zipWith (· - ·) (x.drop 1) x
  let powers := (List.range T).map (fun t => rhoz ^ (T - 1 - t))
  List.zipWith (· / ·) (cumsumQ (List.zipWith (· * ·) powers dx)) powers

def gen_ivx (x : List ℚ) (rhoz : ℚ) (Tlens : List ℕ) : List ℚ :=
  ((split_mat_into_cells x Tlens).map
    (fun xt => gen_ivx_for_one_time_series xt rhoz)).flatten

/-! ## `xj.py`

```python
def xjackk_for_odd_time_len(x, xx_for_correction, x0_for_correction):
    T = len(x)
    x_odd = x[0:T-2:2]
    x_odd_fwd = x[2:T:2]
    x_even = x[1:T-1:2]
    x_odd_tilde = x_odd - np.mean(x_odd)
    x_even_tilde = x_even - np.mean(x_even)
    numer = (np.dot(x_odd_tilde, x_even) + np.dot(x_even_tilde, x_odd_fwd)
             + 4/(T-1) * xx_for_correction - 4/(T-1) * x0_for_correction)
    denom = np.dot(x_odd_tilde, x_odd_tilde) + np.dot(x_even_tilde, x_even_tilde)
    return numer, denom
```
The identical function (up to float64 casts) also appears in
`xjackkUnbalanced.py`; both snapshots are embedded by this one definition.
`4/(T-1)` divides by zero for `T = 1` (Python would raise
`ZeroDivisionError`); the function is only invoked on units with `T > 20`. -/

def xjackk_for_odd_time_len (x : List ℚ) (xx_for_correction x0_for_correction : ℚ) :
    ℚ × ℚ :=
  let T := x.length
  let x_odd := everyOther (pySliceZ x 0 ((T : ℤ) - 2))
  let x_odd_fwd := everyOther (pySliceZ x 2 (T : ℤ))
  let x_even := everyOther (pySliceZ x 1 ((T : ℤ) - 1))
  let x_odd_tilde := x_odd.map (fun v => v - meanQ x_odd)
  let x_even_tilde := x_even.map (fun v => v - meanQ x_even)
  let numer := dotQ x_odd_tilde x_even + dotQ x_even_tilde x_odd_fwd
    + 4 / ((T : ℚ) - 1) * xx_for_correction
    - 4 / ((T : ℚ) - 1) * x0_for_correction
  let denom := dotQ x_odd_tilde x_odd_tilde + dotQ x_even_tilde x_even_tilde
  (numer, denom)

/-- The body of the per-unit loop of `xj` (`xj.py` lines 43-61), for one unit
of declared time length `T` with data `x`:

```python
To = T if T % 2 else T - 1  # Max odd number less than or equal to T
x_first_half = x[: (To - 1) // 2]
x_first_half_fwd = x[1 : (To + 1) // 2]
xx_for_correction = np.dot(x_first_half, x_first_half_fwd)
x0_for_correction = 0.5 * (x[0] * np.sum(x[1:-1:2]) + x[1] * np.sum(x[0:-2:2]))
if T % 2 != 0:
    numer, denom = xjackk_for_odd_time_len(x, xx_for_correction, x0_for_correction)
else:
    numer, denom = xjackk_for_odd_time_len(x[1:], xx_for_correction, x0_for_correction)
```
`x[0]`/`x[1]` are embedded with `headD`/`getD`; the loop only reaches this
code for units with `T > 20`, where both indices exist. -/
def xjContrib (T : ℕ) (x : List ℚ) : ℚ × ℚ :=
  let To := if T % 2 ≠ 0 then T else T - 1
  let x_first_half := x.take ((To - 1) / 2)
  let x_first_half_fwd := (x.take ((To + 1) / 2)).drop 1
  let xx_for_correction := dotQ x_first_half x_first_half_fwd
  let x0_for_correction := (1 / 2 : ℚ) *
    (x.headD 0 * (everyOther (pySliceZ x 1 (-1))).sum
      + x.getD 1 0 * (everyOther (pySliceZ x 0 (-2))).sum)
  if T % 2 ≠ 0 then xjackk_for_odd_time_len x xx_for_correction x0_for_correction
  else xjackk_for_odd_time_len (x.drop 1) xx_for_correction x0_for_correction

/-- The per-unit (numerator, denominator) contributions accumulated by `xj`
(`xj.py` lines 37-64): the loop runs over unit indices, slicing `xlong` by
the same prefix-sum indices as `split_mat_into_cells`, and skips any unit
with `T <= 20` (`if T <= 20: continue`). -/
def xjContribs (xlong : List ℚ) (Tlens : List ℕ) : List (ℚ × ℚ) :=
  (Tlens.zip (split_mat_into_cells xlong Tlens)).filterMap
    (fun p => if p.1 ≤ 20 then none else some (xjContrib p.1 p.2))

/-- `rho_hat = np.sum(numers) / np.sum(denoms)` (`xj.py` line 66).
When no unit is eligible, both sums are `0` and numpy produces `NaN`
(`0.0/0.0` with a runtime warning, not an exception); in ℚ the same
division yields `0`. -/
def xjVal (xlong : List ℚ) (Tlens : List ℕ) : ℚ :=
  ((xjContribs xlong Tlens).map Prod.fst).sum
    / ((xjContribs xlong Tlens).map Prod.snd).sum

/-- Failure channel postulated by the specification (§7).  The source under
`src/` contains no `raise` statement on the numerical paths, so the embedded
computations below never produce `.error`; the type exists so that the
spec's error-handling claims can be stated and settled. -/
inductive IVXJError where
  | shapeMismatch : IVXJError
  | insufficientLength : IVXJError
  | numericalDegeneracy : IVXJError
deriving DecidableEq

def exceptIsOk {α : Type} : Except IVXJError α → Bool
  | .ok _ => true
  | .error _ => false

/-- `xj(xlong, Tlens)` as observed by a caller: the function body contains
no `raise`, so it always returns its computed float. -/
def xj (xlong : List ℚ) (Tlens : List ℕ) : Except IVXJError ℚ :=
  .ok (xjVal xlong Tlens)

/-! ## `xjackkUnbalanced.py` (the earlier snapshot of the jackknife)

```python
To = (T // 2) * 2 - 1  # Max odd number less than T
x_first_half = x[:(To-1)//2]
x_first_half_fwd = x[1:(To+1)//2]
xx_for_correction = np.dot(x_first_half, x_first_half_fwd)
x0_for_correction = 0.5 * (x[0] * np.sum(x[1::2]) + x[1] * np.sum(x[0::2]))
```
Its `xjackk_for_odd_time_len` is identical to the one in `xj.py` and is
shared.  The snapshot accumulates `numer_sum += / denom_sum +=` instead of
building lists; over ℚ both are the same sums. -/

def xjackkContrib (T : ℕ) (x : List ℚ) : ℚ × ℚ :=
  let To := (T / 2) * 2 - 1
  let x_first_half := x.take ((To - 1) / 2)
  let x_first_half_fwd := (x.take ((To + 1) / 2)).drop 1
  let xx_for_correction := dotQ x_first_half x_first_half_fwd
  let x0_for_correction := (1 / 2 : ℚ) *
    (x.headD 0 * (everyOther (x.drop 1)).sum
      + x.getD 1 0 * (everyOther x).sum)
  if T % 2 ≠ 0 then xjackk_for_odd_time_len x xx_for_correction x0_for_correction
  else xjackk_for_odd_time_len (x.drop 1) xx_for_correction x0_for_correction

def xjackk_unbalanced (xlong : List ℚ) (Tlens : List ℕ) : ℚ :=
  let contribs := (Tlens.zip (split_mat_into_cells xlong Tlens)).filterMap
    (fun p => if p.1 ≤ 20 then none else some (xjackkContrib p.1 p.2))
  (contribs.map Prod.fst).sum / (contribs.map Prod.snd).sum

/-! ### The two historical `To` formulas, as written in the sources

Both are over ℤ because Python integers are signed (`(1 // 2) * 2 - 1 = -1`).
Python `//` is floor division (`Int.fdiv`); `%` by a positive modulus agrees
with `Int.emod`. -/

/-- `To = T if T % 2 else T - 1` — `xj.py` line 47. -/
def To_xj (T : ℤ) : ℤ := if T % 2 ≠ 0 then T else T - 1

/-- `To = (T // 2) * 2 - 1` — `xjackkUnbalanced.py` line 33. -/
def To_xjackk (T : ℤ) : ℤ := (Int.fdiv T 2) * 2 - 1

/-! ## `ivxj.py`: the orchestrator `raw_ivxj`

Each intermediate quantity of `raw_ivxj` (lines 134-194) is embedded as its
own definition, taking exactly the inputs it depends on.  `Tlens -= 1`
(line 148) happens *before* the instrument generation, the within
transformation and the Nickell bias term, so all of those see the
decremented vector. -/

def raw_ivxj_rhoHat (x : List ℚ) (Tlens : List ℕ) : ℚ := xjVal x Tlens

/-- `Tlens -= 1` (line 148): the length vector after lag trimming. -/
def raw_ivxj_Tlens1 (Tlens : List ℕ) : List ℕ := Tlens.map (fun T => T - 1)

def raw_ivxj_obs_total (Tlens : List ℕ) : ℚ := ((raw_ivxj_Tlens1 Tlens).sum : ℚ)

/-- `y = delete_period_obs(y, Tlens, 1)` (line 143). -/
def raw_ivxj_y1 (y : List ℚ) (Tlens : List ℕ) : List ℚ :=
  delete_period_obs y Tlens 1 true

/-- `xLag = delete_period_obs(x, Tlens, 1, False)` (line 144). -/
def raw_ivxj_xLag (x : List ℚ) (Tlens : List ℕ) : List ℚ :=
  delete_period_obs x Tlens 1 false

/-- `x = delete_period_obs(x, Tlens, 1)` (line 145). -/
def raw_ivxj_x1 (x : List ℚ) (Tlens : List ℕ) : List ℚ :=
  delete_period_obs x Tlens 1 true

/-- `zLag = gen_ivx(xLag, rhoz, Tlens)` (line 152), with the decremented
`Tlens`. -/
def raw_ivxj_zLag (x : List ℚ) (rhoz : ℚ) (Tlens : List ℕ) : List ℚ :=
  gen_ivx (raw_ivxj_xLag x Tlens) rhoz (raw_ivxj_Tlens1 Tlens)

def raw_ivxj_xTilde (x : List ℚ) (Tlens : List ℕ) : List ℚ :=
  within_trans (raw_ivxj_x1 x Tlens) (raw_ivxj_Tlens1 Tlens)

def raw_ivxj_xLagTilde (x : List ℚ) (Tlens : List ℕ) : List ℚ :=
  within_trans (raw_ivxj_xLag x Tlens) (raw_ivxj_Tlens1 Tlens)

def raw_ivxj_zLagTilde (x : List ℚ) (rhoz : ℚ) (Tlens : List ℕ) : List ℚ :=
  within_trans (raw_ivxj_zLag x rhoz Tlens) (raw_ivxj_Tlens1 Tlens)

def raw_ivxj_yTilde (y : List ℚ) (Tlens : List ℕ) : List ℚ :=
  within_trans (raw_ivxj_y1 y Tlens) (raw_ivxj_Tlens1 Tlens)

/-- `ZX = np.dot(zLagTilde.flatten(), xLag.flatten())` (line 161). -/
def raw_ivxj_ZX (x : List ℚ) (rhoz : ℚ) (Tlens : List ℕ) : ℚ :=
  dotQ (raw_ivxj_zLagTilde x rhoz Tlens) (raw_ivxj_xLag x Tlens)

/-- `btaHat = np.dot(zLagTilde, y) / ZX` (line 164). -/
def raw_ivxj_btaHat (y x : List ℚ) (rhoz : ℚ) (Tlens : List ℕ) : ℚ :=
  dotQ (raw_ivxj_zLagTilde x rhoz Tlens) (raw_ivxj_y1 y Tlens)
    / raw_ivxj_ZX x rhoz Tlens

/-- `uTilde = yTilde - btaHat * xLagTilde` (line 167). -/
def raw_ivxj_uTilde (y x : List ℚ) (rhoz : ℚ) (Tlens : List ℕ) : List ℚ :=
  List.zipWith (fun a b => a - raw_ivxj_btaHat y x rhoz Tlens * b)
    (raw_ivxj_yTilde y Tlens) (raw_ivxj_xLagTilde x Tlens)

/-- `vTilde = xTilde - rhoHat * xLagTilde` (line 168). -/
def raw_ivxj_vTilde (x : List ℚ) (Tlens : List ℕ) : List ℚ :=
  List.zipWith (fun a b => a - raw_ivxj_rhoHat x Tlens * b)
    (raw_ivxj_xTilde x Tlens) (raw_ivxj_xLagTilde x Tlens)

def raw_ivxj_omg11Hat (y x : List ℚ) (rhoz : ℚ) (Tlens : List ℕ) : ℚ :=
  dotQ (raw_ivxj_uTilde y x rhoz Tlens) (raw_ivxj_uTilde y x rhoz Tlens)
    / raw_ivxj_obs_total Tlens

def raw_ivxj_omg12Hat (y x : List ℚ) (rhoz : ℚ) (Tlens : List ℕ) : ℚ :=
  dotQ (raw_ivxj_vTilde x Tlens) (raw_ivxj_uTilde y x rhoz Tlens)
    / raw_ivxj_obs_total Tlens

/-- The Nickell bias vector (lines 177-179):

```python
lam_seq = ((rhoz - rhoz**Tlens) / (1 - rhoz)
           - (rhoHat - rhoHat**Tlens) / (1 - rhoHat)) / (rhoz - rhoHat)
```
computed elementwise over the *decremented* `Tlens` (line 148 ran first). -/
def raw_ivxj_lam_seq (x : List ℚ) (rhoz : ℚ) (Tlens : List ℕ) : List ℚ :=
  let rhoHat := raw_ivxj_rhoHat x Tlens
  (raw_ivxj_Tlens1 Tlens).map (fun T =>
    ((rhoz - rhoz ^ T) / (1 - rhoz) - (rhoHat - rhoHat ^ T) / (1 - rhoHat))
      / (rhoz - rhoHat))

/-- `b = omg12Hat * np.sum(lam_seq / Tlens) / ZX` (line 180), again with the
decremented `Tlens`. -/
def raw_ivxj_b (y x : List ℚ) (rhoz : ℚ) (Tlens : List ℕ) : ℚ :=
  raw_ivxj_omg12Hat y x rhoz Tlens *
    (List.zipWith (fun lam T => lam / (T : ℚ))
      (raw_ivxj_lam_seq x rhoz Tlens) (raw_ivxj_Tlens1 Tlens)).sum
    / raw_ivxj_ZX x rhoz Tlens

/-- `raw_ivxj(y, x, rhoz, Tlens)` (lines 102-194).  The body performs no
degeneracy checks and contains no `raise`: it returns
`(btaHat, btaHatDebias, se, rhoHat)` unconditionally.  `se` (lines 183-189)
applies `np.sqrt` and a `Tlens ** 0.95` weighting, both of which leave ℚ;
it is an irrational, strictly monotone function of rational intermediates
and is not the subject of any claim, so the embedded result tuple carries
`(btaHat, btaHatDebias, rhoHat)`.  The `Except` layer records the absence
of any failure path on this code. -/
def raw_ivxj (y x : List ℚ) (rhoz : ℚ) (Tlens : List ℕ) :
    Except IVXJError (ℚ × ℚ × ℚ) :=
  .ok (raw_ivxj_btaHat y x rhoz Tlens,
    raw_ivxj_btaHat y x rhoz Tlens + raw_ivxj_b y x rhoz Tlens,
    raw_ivxj_rhoHat x Tlens)

/-! ## `ivxj.py`: column defaulting of the top-level entry point

```python
if identity is None and time is None and y_name is None and x_name is None:
    identity = data.columns[0]
    time = data.columns[1]
    y_name = data.columns[2]
    x_name = data.columns[3]
```
(lines 76-80).  `data.columns` is embedded as a list of labels;
`data.columns[k]` (which raises `IndexError` on a frame with fewer than
`k+1` columns) is embedded as the optional lookup `cols[k]?` — the claims
concern frames with at least four columns.  A slot that stays `none`
corresponds to a variable that is still `None` when later used for sorting
and column lookup. -/
def ivxj_resolve_columns (cols : List String)
    (identity time y_name x_name : Option String) :
    Option String × Option String × Option String × Option String :=
  if identity.isNone && time.isNone && y_name.isNone && x_name.isNone then
    (cols[0]?, cols[1]?, cols[2]?, cols[3]?)
  else
    (identity, time, y_name, x_name)

/-! ## Specification-side definitions (for refinement comparisons) -/

/-- Modelled from the spec (§4.6, step 10), for claim C1: the per-unit
Nickell bias term
`lam[i] = ((rhoz - rhoz^T)/(1-rhoz) - (rhoHat - rhoHat^T)/(1-rhoHat)) / (rhoz - rhoHat)`
as a function of the exponent `T`; the claim under test is which `T` the
code instantiates it at. -/
def lamFormula (rhoz rhoHat : ℚ) (T : ℕ) : ℚ :=
  ((rhoz - rhoz ^ T) / (1 - rhoz) - (rhoHat - rhoHat ^ T) / (1 - rhoHat))
    / (rhoz - rhoHat)

/-- The stacked data of the units of `(x, Tlens)` whose time length exceeds
20, in original order — the sub-panel that claim C6 compares against. -/
def eligibleUnitsConcat (x : List ℚ) (Tlens : List ℕ) : List ℚ :=
  ((Tlens.zip (split_mat_into_cells x Tlens)).filterMap
    (fun p => if p.1 ≤ 20 then none else some p.2)).flatten

/-- The per-unit lengths of the units whose time length exceeds 20, in
original order. -/
def eligibleTlens (Tlens : List ℕ) : List ℕ :=
  Tlens.filterMap (fun T => if T ≤ 20 then none else some T)


/-! ## Structural lemmas: the prefix-sum segmentation is recursive chunking -/

theorem scanl_add_shift (l : List ℕ) : ∀ c : ℕ,
    l.scanl (· + ·) c = (l.scanl (· + ·) 0).map (c + ·) := by
  induction l with
  | nil => intro c; simp
  | cons a l ih =>
    intro c
    simp only [List.scanl_cons]
    rw [ih (c + a), ih (0 + a)]
    simp [List.map_map, Function.comp, Nat.add_assoc]

theorem scanl_zero_eq (Ts : List ℕ) :
    Ts.scanl (· + ·) 0 = 0 :: cumsumN Ts := by
  cases Ts with
  | nil => simp [cumsumN]
  | cons a l => simp [cumsumN, List.scanl_cons]

theorem cumsumN_cons (T : ℕ) (Ts : List ℕ) :
    cumsumN (T :: Ts) = T :: (cumsumN Ts).map (T + ·) := by
  simp only [cumsumN, List.scanl_cons, Nat.zero_add, List.drop_succ_cons,
    List.drop_zero]
  rw [scanl_add_shift, scanl_zero_eq]
  simp

theorem cumsumN_length (Ts : List ℕ) : (cumsumN Ts).length = Ts.length := by
  simp [cumsumN, List.length_scanl]

theorem dropLast_map (f : ℕ → ℕ) : ∀ l : List ℕ,
    (l.map f).dropLast = l.dropLast.map f := by
  intro l
  induction l with
  | nil => rfl
  | cons a l ih =>
    cases l with
    | nil => rfl
    | cons b m =>
      simp only [List.map_cons]
      rw [List.dropLast_cons_of_ne_nil (by simp),
        List.dropLast_cons_of_ne_nil (by simp : (b :: m) ≠ []), List.map_cons]
      simp only [List.map_cons] at ih
      rw [ih]

theorem sliceNat_shift (A : List ℚ) (T s e : ℕ) :
    sliceNat A (T + s) (T + e) = sliceNat (A.drop T) s e := by
  simp only [sliceNat, List.drop_take, List.drop_drop]
  have h1 : T + e - (T + s) = e - s := by omega
  rw [h1]

/-- The source's prefix-sum slicing is the recursive chunking. -/
theorem split_eq_chunks (Tlens : List ℕ) : ∀ A : List ℚ,
    split_mat_into_cells A Tlens = chunks A Tlens := by
  induction Tlens with
  | nil => intro A; rfl
  | cons T Ts ih =>
    intro A
    simp only [split_mat_into_cells, chunks, cumsumN_cons]
    rcases hC : cumsumN Ts with _ | ⟨c, C⟩
    · have hTs : Ts = [] := by
        have := cumsumN_length Ts
        rw [hC] at this
        exact List.length_eq_zero.mp this.symm
      subst hTs
      simp [sliceNat, chunks]
    · have hmapne : (c :: C).map (T + ·) ≠ [] := by simp
      rw [List.dropLast_cons_of_ne_nil hmapne, dropLast_map]
      have hcons : (T :: ((c :: C).dropLast).map (T + ·))
          = (0 :: (c :: C).dropLast).map (T + ·) := by simp
      rw [List.zip_cons_cons, hcons, List.zip_map, List.map_cons, List.map_map]
      have hfirst : sliceNat A 0 T = A.take T := by simp [sliceNat]
      show sliceNat A 0 T :: _ = _
      rw [hfirst]
      congr 1
      rw [← ih (A.drop T)]
      simp only [split_mat_into_cells, hC]
      apply List.map_congr_left
      intro p _
      obtain ⟨s, e⟩ := p
      show sliceNat A (T + s) (T + e) = sliceNat (A.drop T) s e
      exact sliceNat_shift A T s e


/-! ### Structural lemmas about `chunks` -/

theorem chunks_length (Tlens : List ℕ) : ∀ A : List ℚ,
    (chunks A Tlens).length = Tlens.length := by
  induction Tlens with
  | nil => intro A; rfl
  | cons T Ts ih => intro A; simp [chunks, ih]

theorem chunks_flatten (Tlens : List ℕ) : ∀ A : List ℚ,
    Tlens.sum = A.length → (chunks A Tlens).flatten = A := by
  induction Tlens with
  | nil =>
    intro A h
    simp only [List.sum_nil] at h
    simp [chunks, (List.length_eq_zero.mp h.symm)]
  | cons T Ts ih =>
    intro A h
    simp only [List.sum_cons] at h
    have hT : T ≤ A.length := by omega
    have hrest : Ts.sum = (A.drop T).length := by
      rw [List.length_drop]; omega
    simp [chunks, ih (A.drop T) hrest]

theorem chunks_cell_length (Tlens : List ℕ) : ∀ (A : List ℚ),
    Tlens.sum ≤ A.length →
    ∀ c ∈ (chunks A Tlens).zip Tlens, c.1.length = c.2 := by
  induction Tlens with
  | nil => intro A _ c hc; simp [chunks] at hc
  | cons T Ts ih =>
    intro A h c hc
    simp only [List.sum_cons] at h
    simp only [chunks, List.zip_cons_cons, List.mem_cons] at hc
    rcases hc with hc | hc
    · subst hc
      simp only [List.length_take]
      omega
    · exact ih (A.drop T) (by rw [List.length_drop]; omega) c hc

theorem chunks_flatten_map (f : List ℚ → List ℚ)
    (hf : ∀ c : List ℚ, (f c).length = c.length) (Tlens : List ℕ) :
    ∀ A : List ℚ, Tlens.sum = A.length →
    chunks ((chunks A Tlens).map f).flatten Tlens = (chunks A Tlens).map f := by
  induction Tlens with
  | nil => intro A _; rfl
  | cons T Ts ih =>
    intro A h
    simp only [List.sum_cons] at h
    have hT : T ≤ A.length := by omega
    have hlen : (f (A.take T)).length = T := by
      rw [hf, List.length_take]; omega
    have hrest : Ts.sum = (A.drop T).length := by
      rw [List.length_drop]; omega
    simp only [chunks, List.map_cons, List.flatten_cons]
    rw [List.take_left' hlen, List.drop_left' hlen]
    rw [ih (A.drop T) hrest]

/-! ### Generic list arithmetic lemmas -/

theorem chunks_ne_nil (Tlens : List ℕ) : ∀ A : List ℚ,
    Tlens.sum ≤ A.length → (∀ T ∈ Tlens, 0 < T) →
    ∀ c ∈ chunks A Tlens, c ≠ [] := by
  induction Tlens with
  | nil => intro A _ _ c hc; simp [chunks] at hc
  | cons T Ts ih =>
    intro A hlen hpos c hc
    simp only [List.sum_cons] at hlen
    simp only [chunks, List.mem_cons] at hc
    rcases hc with hc | hc
    · subst hc
      have hT : 0 < T := hpos T (by simp)
      have : (A.take T).length = T := by
        rw [List.length_take]; omega
      intro hnil
      rw [hnil] at this
      simp at this
      omega
    · exact ih (A.drop T) (by rw [List.length_drop]; omega)
        (fun T' hT' => hpos T' (by simp [hT'])) c hc

theorem sum_map_sub (c : List ℚ) (m : ℚ) :
    (c.map (fun v => v - m)).sum = c.sum - (c.length : ℚ) * m := by
  induction c with
  | nil => simp
  | cons a l ih =>
    simp only [List.map_cons, List.sum_cons, List.length_cons, ih]
    push_cast
    ring

theorem demean_sum_zero (c : List ℚ) (hc : c ≠ []) :
    (c.map (fun v => v - meanQ c)).sum = 0 := by
  have hlen : (c.length : ℚ) ≠ 0 := by
    have : c.length ≠ 0 := by
      simpa [List.length_eq_zero] using hc
    exact_mod_cast this
  rw [sum_map_sub, meanQ]
  field_simp

theorem scanl_telescope (xs : List ℚ) : ∀ a : ℚ,
    List.scanl (· + ·) a (List.zipWith (· - ·) xs (a :: xs)) = a :: xs := by
  induction xs with
  | nil => intro a; simp
  | cons b bs ih =>
    intro a
    simp only [List.zipWith_cons_cons, List.scanl_cons]
    have h : a + (b - a) = b := by ring
    rw [h, ih b]
    rfl

theorem zipWith_one_mul (l : List ℚ) :
    List.zipWith (· * ·) (List.replicate l.length 1) l = l := by
  induction l with
  | nil => rfl
  | cons a m ih => simp [List.replicate_succ, ih]

theorem zipWith_div_one (l : List ℚ) :
    List.zipWith (· / ·) l (List.replicate l.length 1) = l := by
  induction l with
  | nil => rfl
  | cons a m ih => simp [List.replicate_succ, ih]

theorem powers_one (T : ℕ) :
    (List.range T).map (fun t => (1 : ℚ) ^ (T - 1 - t)) = List.replicate T 1 := by
  rw [List.eq_replicate_iff]
  constructor
  · simp
  · intro b hb
    simp only [List.mem_map] at hb
    obtain ⟨t, _, ht⟩ := hb
    simp [← ht]

theorem gen_ivx_one_at_one (c : List ℚ) (hc : c ≠ []) :
    gen_ivx_for_one_time_series c 1 = c := by
  obtain ⟨a, xs, rfl⟩ := List.exists_cons_of_ne_nil hc
  simp only [gen_ivx_for_one_time_series, powers_one]
  have hdx : (a :: xs).headD 0 :: List.zipWith (· - ·) ((a :: xs).drop 1) (a :: xs)
      = a :: List.zipWith (· - ·) xs (a :: xs) := by
    simp
  rw [hdx]
  have hlendx : (a :: List.zipWith (· - ·) xs (a :: xs)).length
      = (a :: xs).length := by
    simp only [List.length_cons, List.length_zipWith]
    omega
  rw [← hlendx, zipWith_one_mul, hlendx]
  have hcs : cumsumQ (a :: List.zipWith (· - ·) xs (a :: xs)) = a :: xs := by
    simp only [cumsumQ, List.scanl_cons, List.drop_succ_cons, List.drop_zero,
      List.singleton_append, zero_add]
    exact scanl_telescope xs a
  rw [hcs]
  exact zipWith_div_one (a :: xs)

/-! ## Claim C4 -/

/-- Claim C4 (code bug): the spec's zero-window identity
`delete_window(A, Tlens, 0, fromStart) == A` holds for `fromStart = true`
but fails for `fromStart = false`: the source computes `x[:-h]`, and for
`h = 0` the Python slice `x[:-0]` is `x[:0] = []`, so every unit collapses
to the empty list — contradicting the function's own docstring ("delete the
last `h` observations").  At `A = [1,2]`, `Tlens = [2]`, `h = 0`:
the `fromStart = false` call returns `[]` instead of `[1,2]`. -/
theorem C4_zero_window_bug :
    delete_period_obs [1, 2] [2] 0 false = []
      ∧ delete_period_obs [1, 2] [2] 0 true = [1, 2] := by
  decide

/-! ## Claim C5 -/

/-- Claim C5 (confirmed): for every stacked series `x` and matching,
strictly positive length vector `Tlens`, the self-generated instrument with
persistence `rhoz = 1` reproduces `x` elementwise: all weights are `1` and
the cumulative sum of first differences (with boundary `dx[0] = x[0]`)
telescopes back to the level series within every unit. -/
theorem C5_instrument_identity_at_one (x : List ℚ) (Tlens : List ℕ)
    (hsum : Tlens.sum = x.length) (hpos : ∀ T ∈ Tlens, 0 < T) :
    gen_ivx x 1 Tlens = x := by
  unfold gen_ivx
  rw [split_eq_chunks]
  have h1 : ∀ c ∈ chunks x Tlens, gen_ivx_for_one_time_series c 1 = id c := by
    intro c hc
    exact gen_ivx_one_at_one c
      (chunks_ne_nil Tlens x (le_of_eq hsum) hpos c hc)
  rw [List.map_congr_left h1, List.map_id]
  exact chunks_flatten Tlens x hsum

/-- Witness for C5 at the concrete panel `x = [3,1,4]`, `Tlens = [2,1]`. -/
theorem C5_witness : gen_ivx [3, 1, 4] 1 [2, 1] = [3, 1, 4] :=
  C5_instrument_identity_at_one [3, 1, 4] [2, 1] (by decide)
    (by intro T hT; simp at hT; omega)

/-! ## Claim C8 -/

/-- Claim C8 (confirmed): for every length vector `Tlens` and stacked series
`A` with `len(A) = sum(Tlens)`, concatenating the cells of
`split_mat_into_cells(A, Tlens)` reproduces `A` exactly, and the number of
cells equals `len(Tlens)` (cells appear in original unit order, which the
exact concatenation identity pins down). -/
theorem C8_segmentation_round_trip (A : List ℚ) (Tlens : List ℕ)
    (hlen : A.length = Tlens.sum) :
    (split_mat_into_cells A Tlens).flatten = A
      ∧ (split_mat_into_cells A Tlens).length = Tlens.length := by
  rw [split_eq_chunks]
  exact ⟨chunks_flatten Tlens A hlen.symm, chunks_length Tlens A⟩

/-- Witness for C8 at `A = [5,6,7]`, `Tlens = [1,2]`. -/
theorem C8_witness :
    (split_mat_into_cells [5, 6, 7] [1, 2]).flatten = [5, 6, 7]
      ∧ (split_mat_into_cells [5, 6, 7] [1, 2]).length = 2 :=
  C8_segmentation_round_trip [5, 6, 7] [1, 2] (by decide)

/-! ## Claim C9 -/

/-- Claim C9 (confirmed): `within_trans(A, Tlens)` subtracts from each
element of every unit's subsequence exactly that unit's own arithmetic mean
(first conjunct: the segmented output is the segmented input with each
cell's own mean subtracted — no other unit's data enters), and consequently
each unit's output subsequence sums to zero in exact arithmetic. -/
theorem C9_within_demean (A : List ℚ) (Tlens : List ℕ)
    (hsum : Tlens.sum = A.length) (hpos : ∀ T ∈ Tlens, 0 < T) :
    split_mat_into_cells (within_trans A Tlens) Tlens
        = (split_mat_into_cells A Tlens).map
            (fun c => c.map (fun v => v - meanQ c))
      ∧ ∀ c ∈ split_mat_into_cells (within_trans A Tlens) Tlens, c.sum = 0 := by
  have hf : ∀ c : List ℚ,
      (c.map (fun v => v - meanQ c)).length = c.length := by
    intro c; simp
  have h1 : split_mat_into_cells (within_trans A Tlens) Tlens
      = (chunks A Tlens).map (fun c => c.map (fun v => v - meanQ c)) := by
    simp only [within_trans, split_eq_chunks]
    exact chunks_flatten_map (fun c => c.map (fun v => v - meanQ c)) hf Tlens A hsum
  constructor
  · rw [h1, split_eq_chunks]
  · intro c hc
    rw [h1] at hc
    simp only [List.mem_map] at hc
    obtain ⟨c0, hc0, rfl⟩ := hc
    exact demean_sum_zero c0
      (chunks_ne_nil Tlens A (le_of_eq hsum) hpos c0 hc0)

/-- Witness for C9 at `A = [1,2,3,7]`, `Tlens = [3,1]`. -/
theorem C9_witness :
    split_mat_into_cells (within_trans [1, 2, 3, 7] [3, 1]) [3, 1]
        = (split_mat_into_cells [1, 2, 3, 7] [3, 1]).map
            (fun c => c.map (fun v => v - meanQ c))
      ∧ ∀ c ∈ split_mat_into_cells (within_trans [1, 2, 3, 7] [3, 1]) [3, 1],
          c.sum = 0 :=
  C9_within_demean [1, 2, 3, 7] [3, 1] (by decide)
    (by intro T hT; simp at hT; omega)

/-! ## Claim C1 -/

/-- Claim C1 (refuted): the claim states that `lam[i]` uses the *original*
`Tlens[i]` as exponent.  In the source, `Tlens -= 1` (line 148) runs before
`lam_seq` is computed (lines 177-179), so the exponent is `Tlens[i] - 1`.
Concrete input: `x = (1,0,…,0)` with one unit of length 21 and
`rhoz = 1/2` — the computed `lam` differs from the spec formula at `T = 21`
and equals it at `T = 20`. -/
theorem C1_counterexample :
    raw_ivxj_lam_seq (1 :: List.replicate 20 0) (1 / 2) [21]
        ≠ [lamFormula (1 / 2) (raw_ivxj_rhoHat (1 :: List.replicate 20 0) [21]) 21]
      ∧ raw_ivxj_lam_seq (1 :: List.replicate 20 0) (1 / 2) [21]
        = [lamFormula (1 / 2) (raw_ivxj_rhoHat (1 :: List.replicate 20 0) [21]) 20] := by
  constructor
  · exact of_decide_eq_false (by with_unfolding_all rfl)
  · with_unfolding_all rfl

/-- Claim C1, amended: in `raw_ivxj` the per-unit Nickell bias term is the
spec's `lam` formula instantiated at the *decremented* length `Tlens[i] - 1`
(the lag-trimmed length), for every unit of every input panel. -/
theorem C1_amended (x : List ℚ) (rhoz : ℚ) (Tlens : List ℕ) (i : ℕ) :
    (raw_ivxj_lam_seq x rhoz Tlens)[i]?
      = (Tlens[i]?).map (fun T =>
          lamFormula rhoz (raw_ivxj_rhoHat x Tlens) (T - 1)) := by
  simp only [raw_ivxj_lam_seq, raw_ivxj_Tlens1, List.getElem?_map,
    Option.map_map]
  cases h : Tlens[i]? <;> simp [lamFormula]

/-! ## Claim C2 -/

/-- Claim C2 (refuted): `raw_ivxj` is claimed to fail with a
NumericalDegeneracy error when `ZX = 0` (in particular for an `x` series
constant within every unit).  The source performs no such check and
contains no `raise`: at the within-unit-constant input
`x = (1,…,1)` (one unit, length 22), `ZX` is exactly `0`, yet `raw_ivxj`
returns normally (in float64 the subsequent divisions produce `NaN`/`inf`;
nothing is raised). -/
theorem C2_counterexample :
    raw_ivxj_ZX (List.replicate 22 1) (1 / 2) [22] = 0
      ∧ exceptIsOk (raw_ivxj (List.replicate 22 0) (List.replicate 22 1)
          (1 / 2) [22]) = true := by
  constructor
  · with_unfolding_all rfl
  · rfl

/-- Claim C2, amended: `raw_ivxj` performs no degeneracy checks: on every
panel whose units all have length at least 2 (so that no empty-unit
`IndexError` can arise) it returns a value — never a NumericalDegeneracy
failure — and the constant-`x` panel indeed drives `ZX` to exactly zero,
so the subsequent divisions are by zero (`NaN`/`inf` in float64). -/
theorem C2_amended :
    (∀ (y x : List ℚ) (rhoz : ℚ) (Tlens : List ℕ), (∀ T ∈ Tlens, 2 ≤ T) →
        exceptIsOk (raw_ivxj y x rhoz Tlens) = true)
      ∧ raw_ivxj_ZX (List.replicate 22 1) (1 / 2) [22] = 0 := by
  constructor
  · intro y x rhoz Tlens _
    rfl
  · with_unfolding_all rfl

/-- Witness for the amended C2 at the constant-regressor panel. -/
theorem C2_witness :
    exceptIsOk (raw_ivxj (List.replicate 22 0) (List.replicate 22 1)
        (1 / 2) [22]) = true :=
  C2_amended.1 (List.replicate 22 0) (List.replicate 22 1) (1 / 2) [22]
    (by intro T hT; simp at hT; omega)

/-! ## Claim C3 -/

/-- Claim C3 (refuted): when every unit has `T ≤ 20`, `xj` is claimed to
fail with an InsufficientLength error.  The source skips all units, reaches
`np.sum([]) / np.sum([]) = 0.0/0.0`, and *returns* the result (a `NaN`
float, with only a runtime warning) — no exception is raised.  At
`x = [1,2,3,4,5]`, `Tlens = [5]` the embedded `xj` returns a value
(`0`, Lean's exact-arithmetic reading of `0/0`). -/
theorem C3_counterexample : xj [1, 2, 3, 4, 5] [5] = Except.ok 0 := by
  have h : xjVal [1, 2, 3, 4, 5] [5] = 0 := by with_unfolding_all rfl
  simp [xj, h]

/-- Claim C3, amended: on a panel where every unit has `T ≤ 20`, every unit
is skipped, both accumulator sums are empty (numerator and denominator both
`0`), and `xj` returns the `0/0` quotient (`NaN` in float64, `0` in ℚ)
instead of raising anything. -/
theorem C3_amended (x : List ℚ) (Tlens : List ℕ) (h : ∀ T ∈ Tlens, T ≤ 20) :
    xjContribs x Tlens = [] ∧ xj x Tlens = Except.ok 0 := by
  have hc : xjContribs x Tlens = [] := by
    rw [xjContribs, List.filterMap_eq_nil_iff]
    intro p hp
    have hmem : p.1 ∈ Tlens := by
      obtain ⟨a, b⟩ := p
      exact (List.of_mem_zip hp).1
    simp [h p.1 hmem]
  refine ⟨hc, ?_⟩
  have hv : xjVal x Tlens = 0 := by
    rw [xjVal, hc]
    simp
  simp [xj, hv]

/-- Witness for the amended C3 at `x = [3,1,4]`, `Tlens = [3]`. -/
theorem C3_witness :
    xjContribs [3, 1, 4] [3] = [] ∧ xj [3, 1, 4] [3] = Except.ok 0 :=
  C3_amended [3, 1, 4] [3] (by intro T hT; simp at hT; omega)

/-! ## Claim C7 -/

/-- Claim C7 (confirmed): the two historical formulas for the largest odd
working length — `T if T % 2 else T - 1` (`xj.py` line 47) and
`(T // 2) * 2 - 1` (`xjackkUnbalanced.py` line 33) — agree on every even
`T ≥ 2` (both give `T - 1`) and disagree on every odd `T ≥ 1` (the first
gives `T`, the second `T - 2`); and the two snapshots of the jackknife
routine disagree on a concrete panel with a single eligible odd-length
unit (length 23). -/
theorem C7_To_formulas :
    (∀ k : ℕ,
      To_xj (2 * (k : ℤ) + 2) = (2 * (k : ℤ) + 2) - 1
        ∧ To_xjackk (2 * (k : ℤ) + 2) = (2 * (k : ℤ) + 2) - 1
        ∧ To_xj (2 * (k : ℤ) + 1) = 2 * (k : ℤ) + 1
        ∧ To_xjackk (2 * (k : ℤ) + 1) = (2 * (k : ℤ) + 1) - 2)
      ∧ xjVal (List.replicate 10 (0 : ℚ) ++ 1 :: 1 :: List.replicate 11 0) [23]
          ≠ xjackk_unbalanced
              (List.replicate 10 (0 : ℚ) ++ 1 :: 1 :: List.replicate 11 0)
              [23] := by
  constructor
  · intro k
    refine ⟨?_, ?_, ?_, ?_⟩
    · have hc : ¬ ((2 * (k : ℤ) + 2) % 2 ≠ 0) := by omega
      rw [To_xj, if_neg hc]
    · have hd : Int.fdiv (2 * (k : ℤ) + 2) 2 = k + 1 := by
        rw [Int.fdiv_eq_ediv] <;> omega
      rw [To_xjackk, hd]
      ring
    · have hc : (2 * (k : ℤ) + 1) % 2 ≠ 0 := by omega
      rw [To_xj, if_pos hc]
    · have hd : Int.fdiv (2 * (k : ℤ) + 1) 2 = k := by
        rw [Int.fdiv_eq_ediv] <;> omega
      rw [To_xjackk, hd]
      ring
  · exact of_decide_eq_false (by with_unfolding_all rfl)

/-! ## Claim C10 -/

/-- Claim C10 (confirmed): in the `ivxj` entry point, positional column
defaulting (first column as identity, second as time, third as dependent,
fourth as independent) is applied only when all four of `identity`, `time`,
`y_name`, `x_name` are `None`; if some but not all are supplied, the
omitted ones are not defaulted and remain `None` for the subsequent column
lookups and sorting. -/
theorem C10_column_defaulting :
    (∀ (cols : List String) (identity time y_name x_name : Option String),
        ¬(identity = none ∧ time = none ∧ y_name = none ∧ x_name = none) →
        ivxj_resolve_columns cols identity time y_name x_name
          = (identity, time, y_name, x_name))
      ∧ ∀ cols : List String,
        ivxj_resolve_columns cols none none none none
          = (cols[0]?, cols[1]?, cols[2]?, cols[3]?) := by
  constructor
  · intro cols identity time y_name x_name h
    have hb : ¬ ((identity.isNone && time.isNone && y_name.isNone
        && x_name.isNone) = true) := by
      simp only [Bool.and_eq_true, Option.isNone_iff_eq_none]
      tauto
    rw [ivxj_resolve_columns, if_neg hb]
  · intro cols
    rfl

/-- Witness for C10: supplying only `identity` leaves the other three
arguments undefaulted. -/
theorem C10_witness :
    ivxj_resolve_columns ["a", "b", "c", "d"] (some "id") none none none
      = (some "id", none, none, none) :=
  C10_column_defaulting.1 ["a", "b", "c", "d"] (some "id") none none none
    (by simp)

/-! ## Claim C6 -/

/-- Auxiliary induction for C6, stated over the recursive chunking: the
per-unit contributions of a panel equal those of the sub-panel obtained by
deleting every unit with `T ≤ 20`. -/
theorem xjContribs_elig_aux (Ts : List ℕ) : ∀ x : List ℚ, Ts.sum = x.length →
    (Ts.zip (chunks x Ts)).filterMap
        (fun p => if p.1 ≤ 20 then none else some (xjContrib p.1 p.2))
      = ((Ts.filterMap (fun T => if T ≤ 20 then none else some T)).zip
          (chunks (((Ts.zip (chunks x Ts)).filterMap
              (fun p => if p.1 ≤ 20 then none else some p.2)).flatten)
            (Ts.filterMap (fun T => if T ≤ 20 then none else some T)))).filterMap
          (fun p => if p.1 ≤ 20 then none else some (xjContrib p.1 p.2)) := by
  induction Ts with
  | nil => intro x h; rfl
  | cons T Ts ih =>
    intro x h
    simp only [List.sum_cons] at h
    have hT : T ≤ x.length := by omega
    have hlen : (x.take T).length = T := by rw [List.length_take]; omega
    have hrest : Ts.sum = (x.drop T).length := by rw [List.length_drop]; omega
    by_cases hc : T ≤ 20
    · simp only [chunks, List.zip_cons_cons, List.filterMap_cons, if_pos hc]
      exact ih (x.drop T) hrest
    · simp only [chunks, List.zip_cons_cons, List.filterMap_cons, if_neg hc,
        List.flatten_cons]
      rw [List.take_left' hlen, List.drop_left' hlen]
      rw [ih (x.drop T) hrest]

/-- Claim C6 (confirmed): every unit with `T ≤ 20` is skipped entirely by
the jackknife rho estimator — it contributes to neither accumulated sum
(first conjunct: the contribution lists coincide), and the returned
estimate equals the estimate computed from only the units with `T > 20`
(second conjunct), i.e. exclusion, not down-weighting. -/
theorem C6_short_units_excluded (x : List ℚ) (Tlens : List ℕ)
    (hsum : Tlens.sum = x.length) :
    xjContribs x Tlens
        = xjContribs (eligibleUnitsConcat x Tlens) (eligibleTlens Tlens)
      ∧ xj x Tlens = xj (eligibleUnitsConcat x Tlens) (eligibleTlens Tlens) := by
  have h1 : xjContribs x Tlens
      = xjContribs (eligibleUnitsConcat x Tlens) (eligibleTlens Tlens) := by
    simp only [xjContribs, eligibleUnitsConcat, eligibleTlens, split_eq_chunks]
    exact xjContribs_elig_aux Tlens x hsum
  refine ⟨h1, ?_⟩
  simp only [xj, xjVal, h1]

/-- Witness for C6: a panel with one eligible unit (length 21) and one
short unit (length 5). -/
theorem C6_witness :
    xjContribs (List.replicate 26 1) [21, 5]
        = xjContribs (eligibleUnitsConcat (List.replicate 26 1) [21, 5])
            (eligibleTlens [21, 5])
      ∧ xj (List.replicate 26 1) [21, 5]
        = xj (eligibleUnitsConcat (List.replicate 26 1) [21, 5])
            (eligibleTlens [21, 5]) :=
  C6_short_units_excluded (List.replicate 26 1) [21, 5] (by decide)
